import Mathlib

/-!
Shallow embedding of the PDF-to-JSON document structuring pipeline
(`main.py`): heading classification, section tracking, paragraph
segmentation, primary table extraction, fallback table reconciliation,
chart detection, and whole-document assembly.

Strings are modelled by Lean `String` at API boundaries and `List Char`
internally.  Python truthiness of strings (empty string is falsy) and of
`None` is modelled explicitly.  Regular expressions are hand-compiled to
deterministic matchers; each of the four heading patterns and the section
regex are first-match-deterministic because adjacent character classes in
them are disjoint, so greedy matching coincides with backtracking.
-/

namespace DocToJson

/-- ASCII character class `[A-Z]`. -/
def isUpperAZ (c : Char) : Bool := 65 ≤ c.toNat && c.toNat ≤ 90

/-- ASCII character class `[a-z]`. -/
def isLowerAZ (c : Char) : Bool := 97 ≤ c.toNat && c.toNat ≤ 122

/-- ASCII character class `\d` (`[0-9]`). -/
def isDigit09 (c : Char) : Bool := 48 ≤ c.toNat && c.toNat ≤ 57

/-- Python `\s` on ASCII input: space, tab, newline, carriage return,
vertical tab, form feed. -/
def isPySpace (c : Char) : Bool := c.toNat = 32 || (9 ≤ c.toNat && c.toNat ≤ 13)

/-- Remove the maximal trailing run of characters satisfying `p`. -/
def dropTrailing (p : Char → Bool) : List Char → List Char
  | [] => []
  | c :: rest =>
    if (dropTrailing p rest).isEmpty && p c then [] else c :: dropTrailing p rest

/-- Python `str.strip()`: remove leading and trailing whitespace. -/
def stripList (cs : List Char) : List Char :=
  dropTrailing isPySpace (cs.dropWhile isPySpace)

/-- Python `str.strip()` on `String`. -/
def pystrip (s : String) : String := ⟨stripList s.data⟩

/-- Regex `^[A-Z][A-Z\s]+$`: all-capitals heading (needs at least two
characters). -/
def pat1 : List Char → Bool
  | [] => false
  | c :: rest =>
    isUpperAZ c && !rest.isEmpty && rest.all (fun d => isUpperAZ d || isPySpace d)

/-- Consume `\d+\.?\s+` from the front; return the remainder on success. -/
def numDotSpace (cs : List Char) : Option (List Char) :=
  let ds := cs.takeWhile isDigit09
  let r1 := cs.dropWhile isDigit09
  if ds.isEmpty then none
  else
    let r2 := match r1 with
      | '.' :: r => r
      | _ => r1
    let sp := r2.takeWhile isPySpace
    let r3 := r2.dropWhile isPySpace
    if sp.isEmpty then none else some r3

/-- Regex `^\d+\.?\s+[A-Z]`: numbered-section heading. -/
def pat2 (cs : List Char) : Bool :=
  match numDotSpace cs with
  | some (c :: _) => isUpperAZ c
  | _ => false

/-- Regex `^[A-Z][^.]*:$`: colon-terminated heading. -/
def pat3 : List Char → Bool
  | [] => false
  | c :: rest =>
    isUpperAZ c &&
      (match rest.reverse with
        | ':' :: mid => mid.all (fun d => d ≠ '.')
        | _ => false)

/-- Regex `^\s*[A-Z][a-z]+\s+[A-Z]`: naive title-case heading. -/
def pat4 (cs : List Char) : Bool :=
  match cs.dropWhile isPySpace with
  | [] => false
  | c :: rest =>
    isUpperAZ c &&
      (let low := rest.takeWhile isLowerAZ
       let r2 := rest.dropWhile isLowerAZ
       !low.isEmpty &&
         (let sp := r2.takeWhile isPySpace
          let r3 := r2.dropWhile isPySpace
          !sp.isEmpty &&
            (match r3 with
              | d :: _ => isUpperAZ d
              | [] => false)))

/-- `PDFParser._is_heading` on the character list of the line: strip, then
try the four heading patterns as a disjunction. -/
def isHeadingL (cs : List Char) : Bool :=
  let l := stripList cs
  pat1 l || pat2 l || pat3 l || pat4 l

/-- `PDFParser._is_heading`. -/
def is_heading (line : String) : Bool := isHeadingL line.data

/-- The section cursor: `self.current_section` / `self.current_sub_section`.
`none` models Python `None`. -/
structure Cursor where
  «section» : Option String
  subSection : Option String
deriving DecidableEq, Repr

/-- Python truthiness of an optional string: `None` and `""` are falsy. -/
def pyTruthy : Option String → Bool
  | none => false
  | some s => !s.isEmpty

/-- Regex `^\d+\.?\s+` used by `_update_sections`. -/
def updMatch (cs : List Char) : Bool := (numDotSpace cs).isSome

/-- `PDFParser._update_sections` on the character list of the line. -/
def updateSectionsL (cs : List Char) (c : Cursor) : Cursor :=
  let l := stripList cs
  if updMatch l then ⟨some ⟨l⟩, none⟩
  else if pyTruthy c.«section» then ⟨c.«section», some ⟨l⟩⟩
  else ⟨some ⟨l⟩, c.subSection⟩

/-- `PDFParser._update_sections`. -/
def update_sections (line : String) (c : Cursor) : Cursor :=
  updateSectionsL line.data c

/-- Image metadata as read by `_detect_charts` via `img.get`: each field is
`none` when the key is missing. -/
structure ImageDescr where
  width : Option Int
  height : Option Int
  x0 : Option Int
  y0 : Option Int
deriving DecidableEq, Repr

/-- A content block of a page.  A paragraph's `subSection` field is
`Option (Option String)`: `none` means the `sub_section` key is absent from
the emitted record, `some v` means the key is present with value `v`. -/
inductive Block where
  | paragraph («section» : Option String) (subSection : Option (Option String))
      (text : String)
  | table («section» : Option String) (subSection : Option String)
      (descr : String) (data : List (List String))
  | chart («section» : Option String) (subSection : Option String)
      (descr : String) (info : ImageDescr)
deriving DecidableEq, Repr

/-- Is the block a table block (`content["type"] == "table"`)? -/
def Block.isTable : Block → Bool
  | .table _ _ _ _ => true
  | _ => false

/-- A page record: `{"page_number": ..., "content": [...]}`. -/
structure Page where
  page_number : Nat
  content : List Block
deriving DecidableEq, Repr

/-- Python `text.split('\n')` on character lists. -/
def splitLinesAux : List Char → List Char → List (List Char)
  | [], cur => [cur.reverse]
  | c :: rest, cur =>
    if c = '\n' then cur.reverse :: splitLinesAux rest []
    else splitLinesAux rest (c :: cur)

/-- Python `text.split('\n')`. -/
def splitLines (cs : List Char) : List (List Char) := splitLinesAux cs []

/-- Python `' '.join(buf)`. -/
def joinBuf (buf : List (List Char)) : List Char := List.intercalate [' '] buf

/-- Loop state of `_extract_paragraphs`: the paragraph buffer
(`current_paragraph`), the section cursor, and the accumulated output
(`paragraphs`). -/
structure SegState where
  buf : List (List Char)
  cursor : Cursor
  acc : List Block
deriving DecidableEq, Repr

/-- One iteration of the `for line in lines` loop of `_extract_paragraphs`.
The blank-line flush emits a paragraph carrying the `sub_section` key; the
heading flush emits one without it (the source omits that key there); a
heading then advances the cursor and is itself not emitted. -/
def segStep (s : SegState) (rawLine : List Char) : SegState :=
  let line := stripList rawLine
  if line.isEmpty then
    if !s.buf.isEmpty then
      let ptext := joinBuf s.buf
      if !ptext.isEmpty then
        { buf := [], cursor := s.cursor,
          acc := s.acc ++
            [Block.paragraph s.cursor.«section» (some s.cursor.subSection) ⟨ptext⟩] }
      else { s with buf := [] }
    else s
  else if isHeadingL line then
    let s1 :=
      if !s.buf.isEmpty then
        let ptext := joinBuf s.buf
        if !ptext.isEmpty then
          { buf := ([] : List (List Char)), cursor := s.cursor,
            acc := s.acc ++ [Block.paragraph s.cursor.«section» none ⟨ptext⟩] }
        else { s with buf := [] }
      else s
    { s1 with cursor := updateSectionsL line s1.cursor }
  else { s with buf := s.buf ++ [line] }

/-- The state after running the `for line in lines` loop of
`_extract_paragraphs` over the whole page text. -/
def segFold (text : String) (c : Cursor) : SegState :=
  List.foldl segStep ⟨[], c, []⟩ (splitLines text.data)

/-- `PDFParser._extract_paragraphs`: returns the emitted paragraph blocks
and the cursor as mutated by heading processing. -/
def extract_paragraphs (text : String) (c : Cursor) : List Block × Cursor :=
  let s := segFold text c
  if !s.buf.isEmpty then
    let ptext := joinBuf s.buf
    if !ptext.isEmpty then
      (s.acc ++
        [Block.paragraph s.cursor.«section» (some s.cursor.subSection) ⟨ptext⟩],
       s.cursor)
    else (s.acc, s.cursor)
  else (s.acc, s.cursor)

/-- Cell normalization of `_extract_tables_pdfplumber`:
`cell.strip() if cell else ""` (both `None` and `""` are falsy). -/
def cleanCell : Option String → String
  | none => ""
  | some s => if s.isEmpty then "" else ⟨stripList s.data⟩

/-- Row/table cleaning of `_extract_tables_pdfplumber`: normalize every
cell, keep only rows with at least one non-empty cell (`any(cleaned_row)`). -/
def cleanTable (table : List (List (Option String))) : List (List String) :=
  (table.map (fun row => row.map cleanCell)).filter
    (fun row => row.any (fun cell => !cell.isEmpty))

/-- Description string `f"table {i1} from page {page_num}"`. -/
def pdfplumberDescr (i1 page_num : Nat) : String :=
  "table " ++ toString i1 ++ " from page " ++ toString page_num

/-- Loop of `_extract_tables_pdfplumber` over `enumerate(page_tables)`. -/
def pdfTablesAux (c : Cursor) (page_num : Nat) :
    List (List (List (Option String))) → Nat → List Block
  | [], _ => []
  | tb :: rest, i =>
    (if tb.isEmpty then []
     else
       let ct := cleanTable tb
       if ct.isEmpty then []
       else [Block.table c.«section» c.subSection (pdfplumberDescr (i + 1) page_num) ct])
      ++ pdfTablesAux c page_num rest (i + 1)

/-- `PDFParser._extract_tables_pdfplumber` given the raw tables reported by
the backend for the page.  The cursor is only read. -/
def extract_tables_pdfplumber (rawTables : List (List (List (Option String))))
    (c : Cursor) (page_num : Nat) : List Block :=
  pdfTablesAux c page_num rawTables 0

/-- Description string `f"Chart/Image {i1} detected on page {page_num}"`. -/
def chartDescr (i1 page_num : Nat) : String :=
  "Chart/Image " ++ toString i1 ++ " detected on page " ++ toString page_num

/-- Loop of `_detect_charts` over `enumerate(page.images)`: keep images with
`width > 100 and height > 100`, `img.get` defaulting missing fields to 0. -/
def chartsAux (c : Cursor) (page_num : Nat) : List ImageDescr → Nat → List Block
  | [], _ => []
  | img :: rest, i =>
    (if img.width.getD 0 > 100 && img.height.getD 0 > 100 then
       [Block.chart c.«section» c.subSection (chartDescr (i + 1) page_num) img]
     else [])
      ++ chartsAux c page_num rest (i + 1)

/-- `PDFParser._detect_charts`.  `images = none` models a page object
without an `images` attribute (`hasattr` is false); an empty list is falsy
in `if hasattr(page, 'images') and page.images`, so both yield no charts. -/
def detect_charts (images : Option (List ImageDescr)) (c : Cursor)
    (page_num : Nat) : List Block :=
  match images with
  | none => []
  | some imgs => if imgs.isEmpty then [] else chartsAux c page_num imgs 0

/-- One table reported by the fallback (camelot) backend: its 1-indexed
page number (camelot's `table.page`, always positive for `pages='all'`),
the dataframe's column labels and its data rows. -/
structure CamelotTable where
  page : Nat
  columns : List String
  rows : List (List String)
deriving DecidableEq, Repr

/-- Pandas `df.empty`: true when the frame has no rows or no columns. -/
def dfEmpty (t : CamelotTable) : Bool := t.rows.isEmpty || t.columns.isEmpty

/-- Description string `f"extracted table from page {page_num}"`. -/
def camelotDescr (page_num : Nat) : String :=
  "extracted table from page " ++ toString page_num

/-- Number of table blocks in a content list (the `existing_tables` count
of `_extract_tables_with_camelot`). -/
def countTables (content : List Block) : Nat :=
  (content.filter Block.isTable).length

/-- One iteration of the `for i, table in enumerate(tables)` loop of
`_extract_tables_with_camelot`: skip empty frames and out-of-range pages;
append `[df.columns] + df.values` as a new table block on the table's page
when that page currently holds at most `i` table blocks.  `i` is the index
in the document-wide enumeration of all fallback tables. -/
def reconcileStep (cur : Cursor) (pages : List Page) (i : Nat)
    (t : CamelotTable) : List Page :=
  if dfEmpty t then pages
  else if t.page ≤ pages.length then
    match pages.get? (t.page - 1) with
    | some pg =>
      if countTables pg.content ≤ i then
        pages.set (t.page - 1)
          { pg with
            content := pg.content ++
              [Block.table cur.«section» cur.subSection (camelotDescr t.page)
                (t.columns :: t.rows)] }
      else pages
    | none => pages
  else pages

/-- `PDFParser._extract_tables_with_camelot`: fold `reconcileStep` over the
fallback tables, threading the document-wide enumeration index. -/
def extract_tables_with_camelot (cur : Cursor) :
    List CamelotTable → Nat → List Page → List Page
  | [], _, pages => pages
  | t :: ts, i, pages =>
    extract_tables_with_camelot cur ts (i + 1) (reconcileStep cur pages i t)

/-- Number of table blocks on page `k` (0-indexed) of a page list. -/
def pageTableCount (pages : List Page) (k : Nat) : Nat :=
  match pages.get? k with
  | some pg => countTables pg.content
  | none => 0

/-- The per-page input handed to `_process_page` by the primary backend:
`page.extract_text()` (possibly `None`), `page.extract_tables()`, and
`page.images` (`none` when the attribute is absent). -/
structure PageInput where
  text : Option String
  tables : List (List (List (Option String)))
  images : Option (List ImageDescr)

/-- `PDFParser._process_page`: paragraphs (which advance the cursor), then
primary tables, then charts, concatenated in that order. -/
def process_page (inp : PageInput) (page_num : Nat) (c : Cursor) :
    Page × Cursor :=
  let pc :=
    match inp.text with
    | some t => if t.isEmpty then ([], c) else extract_paragraphs t c
    | none => ([], c)
  let tbls := extract_tables_pdfplumber inp.tables pc.2 page_num
  let chs := detect_charts inp.images pc.2 page_num
  (⟨page_num, pc.1 ++ tbls ++ chs⟩, pc.2)

/-- The `for page_num, page in enumerate(pdf.pages, 1)` loop of
`parse_pdf`: process pages in order, 1-indexed, threading the cursor. -/
def parsePages : List PageInput → Nat → Cursor → List Page × Cursor
  | [], _, c => ([], c)
  | inp :: rest, n, c =>
    let pc := process_page inp n c
    let rc := parsePages rest (n + 1) pc.2
    (pc.1 :: rc.1, rc.2)

/-- `PDFParser.parse_pdf`: process all pages starting from the fresh cursor,
then run the fallback reconciliation once with the final cursor. -/
def parse_pdf (inputs : List PageInput) (fallback : List CamelotTable) :
    List Page :=
  let pc := parsePages inputs 1 ⟨none, none⟩
  extract_tables_with_camelot pc.2 fallback 0 pc.1

/-- The error raised by `PDFParser.__init__` when the path does not exist. -/
inductive ParseError where
  | inputNotFound
deriving DecidableEq, Repr

/-- The freshly constructed parser state: `pages_data`, `current_section`,
`current_sub_section`. -/
structure ParserState where
  pages_data : List Page
  cursor : Cursor
deriving DecidableEq, Repr

/-- `PDFParser.__init__`: check existence of the input path first and fail
eagerly with `FileNotFoundError`; otherwise initialise the empty state.
The filesystem is modelled by the boolean `pathExists`. -/
def PDFParser.init (pathExists : Bool) : Except ParseError ParserState :=
  if pathExists then Except.ok ⟨[], ⟨none, none⟩⟩
  else Except.error ParseError.inputNotFound

/-! ## Helper lemmas -/

theorem dropWhile_cons_head_false {p : Char → Bool} :
    ∀ {l : List Char} {c : Char} {r : List Char},
      l.dropWhile p = c :: r → p c = false := by
  intro l
  induction l with
  | nil => intro c r h; simp [List.dropWhile] at h
  | cons a t ih =>
    intro c r h
    rw [List.dropWhile_cons] at h
    by_cases hp : p a
    · rw [if_pos hp] at h
      exact ih h
    · rw [if_neg hp] at h
      rw [List.cons.injEq] at h
      rw [h.1] at hp
      exact Bool.eq_false_iff.mpr hp

theorem dropTrailing_cons_head {p : Char → Bool} {l : List Char} {c : Char}
    {r : List Char} (h : dropTrailing p l = c :: r) : ∃ t, l = c :: t := by
  cases l with
  | nil => simp [dropTrailing] at h
  | cons a t =>
    rw [dropTrailing] at h
    split at h
    · exact absurd h (by simp)
    · rw [List.cons.injEq] at h
      exact ⟨t, by rw [h.1]⟩

theorem stripList_head_not_space {cs : List Char} {c : Char} {r : List Char}
    (h : stripList cs = c :: r) : isPySpace c = false := by
  unfold stripList at h
  obtain ⟨t, ht⟩ := dropTrailing_cons_head h
  exact dropWhile_cons_head_false ht

/-- The line begins (in its stripped form) with one or more digits followed
by a period. -/
def startsWithDigitDot (cs : List Char) : Bool :=
  !(cs.takeWhile isDigit09).isEmpty &&
    (match cs.dropWhile isDigit09 with
      | '.' :: _ => true
      | _ => false)

theorem digit_not_upper {c : Char} (h : isDigit09 c = true) :
    isUpperAZ c = false := by
  simp only [isDigit09, Bool.and_eq_true, decide_eq_true_eq] at h
  simp only [isUpperAZ, Bool.and_eq_false_iff, decide_eq_false_iff_not]
  left
  omega

theorem digit_not_space {c : Char} (h : isDigit09 c = true) :
    isPySpace c = false := by
  simp only [isDigit09, Bool.and_eq_true, decide_eq_true_eq] at h
  simp only [isPySpace, Bool.or_eq_false_iff, Bool.and_eq_false_iff,
    decide_eq_false_iff_not]
  constructor
  · omega
  · right
    omega

theorem takeWhile_nonempty_head {p : Char → Bool} {cs : List Char}
    (h : (cs.takeWhile p).isEmpty = false) :
    ∃ c rest, cs = c :: rest ∧ p c = true := by
  cases cs with
  | nil => simp [List.takeWhile] at h
  | cons a t =>
    refine ⟨a, t, rfl, ?_⟩
    cases hp : p a
    · rw [List.takeWhile_cons, hp] at h
      simp at h
    · rfl

/-! ## Claim theorems -/

/-- Claim C3, counterexample: the line `"A"` consists entirely of uppercase
letters (one character), yet `_is_heading` classifies it as a non-heading:
the all-capitals pattern `^[A-Z][A-Z\s]+$` needs at least two characters and
no other pattern matches. -/
theorem is_heading_single_upper_letter_false : is_heading "A" = false := by
  decide

/-- Claim C3, amended: every line whose stripped form has at least TWO
characters, all of them uppercase letters or whitespace, is classified as a
heading by `_is_heading` (via the all-capitals pattern). -/
theorem is_heading_upper_space_two_chars (s : String)
    (h2 : 2 ≤ (stripList s.data).length)
    (hall : (stripList s.data).all (fun c => isUpperAZ c || isPySpace c) = true) :
    is_heading s = true := by
  unfold is_heading isHeadingL
  rcases hcs : stripList s.data with _ | ⟨c, rest⟩
  · rw [hcs] at h2
    simp at h2
  · have hns := stripList_head_not_space hcs
    rw [hcs] at hall h2
    rw [List.all_cons, Bool.and_eq_true] at hall
    obtain ⟨hc, hrestall⟩ := hall
    have hup : isUpperAZ c = true := by
      cases hu : isUpperAZ c
      · rw [hu, hns] at hc
        exact absurd hc (by simp)
      · rfl
    have hrestne : rest.isEmpty = false := by
      cases rest with
      | nil => simp at h2
      | cons d t => simp
    have hp1 : pat1 (c :: rest) = true := by
      simp only [pat1, hup, hrestne, hrestall]
      rfl
    simp only [hp1, Bool.true_or]

/-- Claim C3, witness: the concrete line `"HELLO WORLD"` satisfies the
amended hypotheses and is a heading. -/
theorem is_heading_upper_space_two_chars_witness :
    2 ≤ (stripList "HELLO WORLD".data).length ∧
      (stripList "HELLO WORLD".data).all
          (fun c => isUpperAZ c || isPySpace c) = true ∧
      is_heading "HELLO WORLD" = true :=
  ⟨by decide, by decide,
    is_heading_upper_space_two_chars "HELLO WORLD" (by decide) (by decide)⟩

/-- Claim C4: for every prior cursor state, `_update_sections` applied to a
heading line whose stripped form begins with digits followed by a period
sets `current_section` to the stripped line and clears
`current_sub_section` to none.  (A heading starting with a digit can only
have matched the numbered-section pattern, whose `\d+\.?\s+` prefix is
exactly the regex `_update_sections` tests.) -/
theorem update_sections_digit_period_clears_sub (c : Cursor) (line : String)
    (hh : is_heading line = true)
    (hd : startsWithDigitDot (stripList line.data) = true) :
    update_sections line c = ⟨some ⟨stripList line.data⟩, none⟩ := by
  simp only [startsWithDigitDot, Bool.and_eq_true] at hd
  obtain ⟨htw, _⟩ := hd
  rw [Bool.not_eq_true'] at htw
  obtain ⟨c0, rest, hcs, hdig⟩ := takeWhile_nonempty_head htw
  have hup := digit_not_upper hdig
  have hsp := digit_not_space hdig
  have hp1 : pat1 (stripList line.data) = false := by
    rw [hcs]
    simp [pat1, hup]
  have hp3 : pat3 (stripList line.data) = false := by
    rw [hcs]
    simp [pat3, hup]
  have hp4 : pat4 (stripList line.data) = false := by
    rw [hcs]
    simp [pat4, List.dropWhile_cons, hsp, hup]
  have hp2 : pat2 (stripList line.data) = true := by
    simp only [is_heading, isHeadingL, hp1, hp3, hp4, Bool.false_or,
      Bool.or_false] at hh
    exact hh
  have hupd : updMatch (stripList line.data) = true := by
    cases hn : numDotSpace (stripList line.data) with
    | none => simp [pat2, hn] at hp2
    | some r => simp [updMatch, hn]
  simp only [update_sections, updateSectionsL, hupd, if_true]

/-- Claim C4, witness: updating on the heading `"1. Introduction"` from a
fully populated cursor sets the section and clears the sub-section. -/
theorem update_sections_digit_period_clears_sub_witness :
    update_sections "1. Introduction" ⟨some "Old", some "Old sub"⟩ =
      ⟨some "1. Introduction", none⟩ := by
  rw [update_sections_digit_period_clears_sub ⟨some "Old", some "Old sub"⟩
    "1. Introduction" (by decide) (by decide)]
  decide

/-- Claim C10: `_update_sections` never resets `current_section` to none:
every update either overwrites it with the (stripped) new heading line or
leaves it unchanged, so once it holds a value it stays non-none. -/
theorem current_section_never_reset (c : Cursor) (line : String) :
    ((update_sections line c).«section» = some (pystrip line) ∨
      (update_sections line c).«section» = c.«section») ∧
      (c.«section».isSome = true →
        (update_sections line c).«section».isSome = true) := by
  unfold update_sections updateSectionsL pystrip
  by_cases h1 : updMatch (stripList line.data) = true
  · simp [h1]
  · rw [Bool.not_eq_true] at h1
    by_cases h2 : pyTruthy c.«section» = true
    · simp [h1, h2]
    · rw [Bool.not_eq_true] at h2
      simp [h1, h2]

/-- Claim C10, witness: a populated section stays non-none across an update
on an arbitrary further heading line. -/
theorem current_section_never_reset_witness :
    (update_sections "New Heading" ⟨some "S", some "T"⟩).«section».isSome =
      true :=
  (current_section_never_reset ⟨some "S", some "T"⟩ "New Heading").2 (by decide)

/-- Claim C5: from the empty cursor, segmenting the page text
`"1. Introduction\nThis is a test.\n\nMore text here."` yields exactly the
two paragraph blocks of the scenario, both stamped with section
`"1. Introduction"`, and the heading line itself is not emitted. -/
theorem segment_scenario_two_paragraphs :
    (extract_paragraphs "1. Introduction\nThis is a test.\n\nMore text here."
        ⟨none, none⟩).1 =
      [Block.paragraph (some "1. Introduction") (some none) "This is a test.",
       Block.paragraph (some "1. Introduction") (some none) "More text here."] := by
  decide

/-- Claim C2: of the three buffer-flush sites in `_extract_paragraphs`, the
one triggered by a heading line emits a paragraph block without the
`sub_section` key (modelled as `none` in the paragraph's
`Option (Option String)` slot), while the blank-line flush and the
end-of-text flush emit paragraph blocks carrying the key
(`some` of the cursor's sub-section). -/
theorem heading_flush_omits_sub_section (s : SegState) (raw : List Char)
    (text : String) (c : Cursor) :
    ((stripList raw).isEmpty = false → isHeadingL (stripList raw) = true →
      s.buf.isEmpty = false → (joinBuf s.buf).isEmpty = false →
      (segStep s raw).acc =
        s.acc ++ [Block.paragraph s.cursor.«section» none ⟨joinBuf s.buf⟩]) ∧
      ((stripList raw).isEmpty = true →
        s.buf.isEmpty = false → (joinBuf s.buf).isEmpty = false →
        (segStep s raw).acc =
          s.acc ++
            [Block.paragraph s.cursor.«section» (some s.cursor.subSection)
              ⟨joinBuf s.buf⟩]) ∧
      ((segFold text c).buf.isEmpty = false →
        (joinBuf (segFold text c).buf).isEmpty = false →
        (extract_paragraphs text c).1 =
          (segFold text c).acc ++
            [Block.paragraph (segFold text c).cursor.«section»
              (some (segFold text c).cursor.subSection)
              ⟨joinBuf (segFold text c).buf⟩]) := by
  refine ⟨?_, ?_, ?_⟩
  · intro h1 h2 h3 h4
    simp [segStep, h1, h2, h3, h4]
  · intro h1 h3 h4
    simp [segStep, h1, h3, h4]
  · intro h1 h2
    simp [extract_paragraphs, h1, h2]

/-- Claim C2, witness: concrete flushes at each of the three sites.  The
heading flush (on line `"SUMMARY"`) drops the `sub_section` key; the
blank-line flush and the end-of-text flush keep it. -/
theorem heading_flush_omits_sub_section_witness :
    (segStep ⟨["body".data], ⟨some "S", some "T"⟩, []⟩ "SUMMARY".data).acc =
        [Block.paragraph (some "S") none "body"] ∧
      (segStep ⟨["body".data], ⟨some "S", some "T"⟩, []⟩ "".data).acc =
        [Block.paragraph (some "S") (some (some "T")) "body"] ∧
      (extract_paragraphs "tail text" ⟨some "S", some "T"⟩).1 =
        [Block.paragraph (some "S") (some (some "T")) "tail text"] :=
  ⟨(heading_flush_omits_sub_section ⟨["body".data], ⟨some "S", some "T"⟩, []⟩
      "SUMMARY".data "" ⟨none, none⟩).1 (by decide) (by decide) (by decide)
      (by decide),
    (heading_flush_omits_sub_section ⟨["body".data], ⟨some "S", some "T"⟩, []⟩
      "".data "" ⟨none, none⟩).2.1 (by decide) (by decide) (by decide),
    (heading_flush_omits_sub_section ⟨[], ⟨none, none⟩, []⟩ []
      "tail text" ⟨some "S", some "T"⟩).2.2 (by decide) (by decide)⟩

/-- Claim C6: `_detect_charts` emits a chart block for an image descriptor
iff its width and height (missing values defaulting to 0) both strictly
exceed 100; the scenario descriptors behave as specified. -/
theorem detect_charts_size_threshold (img : ImageDescr) (c : Cursor)
    (n : Nat) :
    (detect_charts (some [img]) c n ≠ [] ↔
        img.width.getD 0 > 100 ∧ img.height.getD 0 > 100) ∧
      detect_charts (some [⟨some 150, some 120, some 10, some 20⟩]) c n =
        [Block.chart c.«section» c.subSection (chartDescr 1 n)
          ⟨some 150, some 120, some 10, some 20⟩] ∧
      detect_charts (some [⟨some 50, some 200, none, none⟩]) c n = [] := by
  refine ⟨?_, by rfl, by rfl⟩
  constructor
  · intro h
    by_cases hw : img.width.getD 0 > 100
    · by_cases hh : img.height.getD 0 > 100
      · exact ⟨hw, hh⟩
      · exact absurd (by simp [detect_charts, chartsAux, hh]) h
    · exact absurd (by simp [detect_charts, chartsAux, hw]) h
  · intro ⟨hw, hh⟩
    simp [detect_charts, chartsAux, hw, hh]

/-- The well-formedness `_extract_tables_pdfplumber` guarantees of an
emitted table block: its data is non-empty and every row keeps a non-empty
cell. -/
def tableDataNonDegenerate : Block → Prop
  | .table _ _ _ data => data ≠ [] ∧ ∀ row ∈ data, ∃ cell ∈ row, cell ≠ ""
  | _ => True

theorem cleanTable_rows {tb : List (List (Option String))} {row : List String}
    (h : row ∈ cleanTable tb) : ∃ cell ∈ row, cell ≠ "" := by
  unfold cleanTable at h
  have hr := List.of_mem_filter h
  rw [List.any_eq_true] at hr
  obtain ⟨cell, hmem, hne⟩ := hr
  refine ⟨cell, hmem, ?_⟩
  intro hc
  rw [hc] at hne
  exact absurd hne (by decide)

theorem pdfTablesAux_nonDegenerate (c : Cursor) (n : Nat) :
    ∀ (raw : List (List (List (Option String)))) (i : Nat)
      (b : Block), b ∈ pdfTablesAux c n raw i → tableDataNonDegenerate b := by
  intro raw
  induction raw with
  | nil => intro i b h; simp [pdfTablesAux] at h
  | cons tb rest ih =>
    intro i b h
    rw [pdfTablesAux, List.mem_append] at h
    rcases h with h | h
    · by_cases he : tb.isEmpty
      · simp [he] at h
      · rw [if_neg he] at h
        by_cases hc : (cleanTable tb).isEmpty
        · rw [if_pos hc] at h
          exact absurd h (by simp)
        · rw [if_neg hc, List.mem_singleton] at h
          subst h
          refine ⟨?_, ?_⟩
          · rw [Bool.not_eq_true, List.isEmpty_eq_false] at hc
            exact hc
          · intro row hrow
            exact cleanTable_rows hrow
    · exact ih (i + 1) b h

/-- Claim C7: every table block emitted by `_extract_tables_pdfplumber` has
non-empty `table_data` in which every row keeps at least one non-empty cell
(cells are normalized: null to empty string, others stripped; all-empty
rows are dropped, then empty tables are dropped); the raw table
`[["A","B"],["",""]]` yields exactly `[["A","B"]]`. -/
theorem primary_tables_non_degenerate
    (raw : List (List (List (Option String)))) (c : Cursor) (n : Nat) :
    (∀ b ∈ extract_tables_pdfplumber raw c n, tableDataNonDegenerate b) ∧
      extract_tables_pdfplumber [[[some "A", some "B"], [some "", some ""]]]
          c n =
        [Block.table c.«section» c.subSection (pdfplumberDescr 1 n)
          [["A", "B"]]] := by
  constructor
  · intro b hb
    exact pdfTablesAux_nonDegenerate c n raw 0 b hb
  · rfl

/-- Claim C7, witness: the block emitted for a concrete raw table is
non-degenerate (its data `[["A", "B"]]` is non-empty). -/
theorem primary_tables_non_degenerate_witness :
    tableDataNonDegenerate
      (Block.table none none (pdfplumberDescr 1 7) [["A", "B"]]) :=
  (primary_tables_non_degenerate [[[some "A", some "B"], [some "", some ""]]]
      ⟨none, none⟩ 7).1
    (Block.table none none (pdfplumberDescr 1 7) [["A", "B"]]) (by decide)

theorem map_page_number_set {l : List Page} {k : Nat} {pg pg' : Page}
    (hget : l.get? k = some pg) (hnum : pg'.page_number = pg.page_number) :
    (l.set k pg').map Page.page_number = l.map Page.page_number := by
  induction l generalizing k with
  | nil => simp at hget
  | cons a t ih =>
    cases k with
    | zero =>
      rw [List.get?_cons_zero, Option.some.injEq] at hget
      subst hget
      simp [List.set, hnum]
    | succ k =>
      rw [List.get?_cons_succ] at hget
      simp [List.set, ih hget]

theorem reconcileStep_map_page_number (cur : Cursor) (pages : List Page)
    (i : Nat) (t : CamelotTable) :
    (reconcileStep cur pages i t).map Page.page_number =
      pages.map Page.page_number := by
  unfold reconcileStep
  split
  · rfl
  · split
    · rcases hget : pages.get? (t.page - 1) with _ | pg
      · rfl
      · dsimp only
        split
        · exact map_page_number_set hget rfl
        · rfl
    · rfl

theorem camelot_map_page_number (cur : Cursor) :
    ∀ (ts : List CamelotTable) (i : Nat) (pages : List Page),
      (extract_tables_with_camelot cur ts i pages).map Page.page_number =
        pages.map Page.page_number := by
  intro ts
  induction ts with
  | nil => intro i pages; rfl
  | cons t rest ih =>
    intro i pages
    rw [extract_tables_with_camelot, ih, reconcileStep_map_page_number]

theorem parsePages_map_page_number :
    ∀ (inputs : List PageInput) (n : Nat) (c : Cursor),
      (parsePages inputs n c).1.map Page.page_number =
        List.range' n inputs.length := by
  intro inputs
  induction inputs with
  | nil => intro n c; rfl
  | cons inp rest ih =>
    intro n c
    rw [parsePages]
    dsimp only [List.length_cons, List.range']
    rw [List.map_cons, ih]
    simp [process_page]

/-- Claim C8: full parsing of an `N`-page input yields exactly `N` page
records whose page numbers are the contiguous sequence `1..N` in source
order, and the fallback reconciliation pass preserves that page list
structure (it only ever appends blocks inside an existing page). -/
theorem parse_pdf_page_numbers_contiguous (inputs : List PageInput)
    (fallback : List CamelotTable) :
    (parse_pdf inputs fallback).map Page.page_number =
        List.range' 1 inputs.length ∧
      (parse_pdf inputs fallback).length = inputs.length ∧
      (parse_pdf inputs fallback).map Page.page_number =
        (parsePages inputs 1 ⟨none, none⟩).1.map Page.page_number := by
  have h1 : (parse_pdf inputs fallback).map Page.page_number =
      List.range' 1 inputs.length := by
    unfold parse_pdf
    rw [camelot_map_page_number, parsePages_map_page_number]
  refine ⟨h1, ?_, ?_⟩
  · have := congrArg List.length h1
    rw [List.length_map, List.length_range'] at this
    exact this
  · rw [h1, parsePages_map_page_number]

theorem reconcileStep_table_count (cur : Cursor) (pages : List Page)
    (i k : Nat) (t : CamelotTable) (h1 : 1 ≤ t.page) :
    pageTableCount (reconcileStep cur pages i t) k ≤
      pageTableCount pages k + (if t.page == k + 1 then 1 else 0) := by
  unfold reconcileStep
  split
  · exact Nat.le_add_right _ _
  · split
    · rcases hget : pages.get? (t.page - 1) with _ | pg
      · exact Nat.le_add_right _ _
      · dsimp only
        split
        · rename_i hrange hcnt
          by_cases hk : k = t.page - 1
          · subst hk
            have hlt : t.page - 1 < pages.length := by omega
            have hbeq : (t.page == t.page - 1 + 1) = true := by
              rw [beq_iff_eq]
              omega
            rw [pageTableCount, List.get?_set_eq_of_lt _ hlt]
            dsimp only
            rw [pageTableCount, hget, hbeq, if_pos rfl]
            simp [countTables, List.filter_append, Block.isTable]
          · rw [pageTableCount, List.get?_set_ne _ _ (fun h => hk h.symm),
              ← pageTableCount]
            exact Nat.le_add_right _ _
        · exact Nat.le_add_right _ _
    · exact Nat.le_add_right _ _

/-- Claim C1, counterexample: with two pages (no primary table on page 1,
one primary table on page 2) and one fallback table on each page in page
order, the document-wide fallback index lets the page-2 fallback table pass
the `existing_tables <= i` test (1 <= 1), so page 2 ends with 2 table
blocks although both its primary count and its fallback count are 1:
the claimed `max` bound is violated. -/
theorem camelot_reconcile_max_bound_counterexample :
    pageTableCount
        (extract_tables_with_camelot ⟨none, none⟩
          [⟨1, ["0"], [["a"]]⟩, ⟨2, ["0"], [["b"]]⟩] 0
          [⟨1, []⟩,
            ⟨2, [Block.table none none "table 1 from page 2" [["x"]]]⟩]) 1 =
        2 ∧
      pageTableCount
          [⟨1, []⟩,
            ⟨2, [Block.table none none "table 1 from page 2" [["x"]]]⟩] 1 =
        1 ∧
      ([⟨1, ["0"], [["a"]]⟩, ⟨2, ["0"], [["b"]]⟩] :
            List CamelotTable).countP (fun t => t.page == 2) = 1 ∧
      ¬(2 ≤ max 1 1) := by
  refine ⟨by decide, by decide, by decide, by decide⟩

/-- Claim C1, amended: `_extract_tables_with_camelot` compares each
fallback table's index `i` in the DOCUMENT-WIDE enumeration of all fallback
tables (not a per-page ordinal) against the number of table blocks already
on that table's page, appending only when the existing count is `<= i`;
consequently, for every page, the number of table blocks after
reconciliation never exceeds the page's prior table count plus the number
of fallback tables reported for that page. -/
theorem camelot_reconcile_count_bound (cur : Cursor)
    (ts : List CamelotTable) (i : Nat) (pages : List Page) (k : Nat)
    (hp : ∀ t ∈ ts, 1 ≤ t.page) :
    pageTableCount (extract_tables_with_camelot cur ts i pages) k ≤
      pageTableCount pages k + ts.countP (fun t => t.page == k + 1) := by
  induction ts generalizing i pages with
  | nil => simp [extract_tables_with_camelot]
  | cons t rest ih =>
    rw [extract_tables_with_camelot]
    have h1 : 1 ≤ t.page := hp t (List.mem_cons_self t rest)
    have h2 := ih (i + 1) (reconcileStep cur pages i t)
      (fun u hu => hp u (List.mem_cons_of_mem t hu))
    have h3 := reconcileStep_table_count cur pages i k t h1
    rw [List.countP_cons]
    simp only at h2 h3 ⊢
    omega

/-- Claim C1, witness: the amended bound at a concrete one-page, one-table
instance. -/
theorem camelot_reconcile_count_bound_witness :
    pageTableCount
        (extract_tables_with_camelot ⟨none, none⟩ [⟨1, ["0"], [["a"]]⟩] 0
          [⟨1, []⟩]) 0 ≤
      pageTableCount [⟨1, []⟩] 0 +
        ([⟨1, ["0"], [["a"]]⟩] : List CamelotTable).countP
          (fun t => t.page == 1) :=
  camelot_reconcile_count_bound ⟨none, none⟩ [⟨1, ["0"], [["a"]]⟩] 0
    [⟨1, []⟩] 0 (by decide)

/-- Claim C9: session construction checks input existence eagerly: a missing
path yields the `InputNotFound` error before any page is processed (the
constructed state would be the empty one), and an existing path constructs
the fresh empty session without error. -/
theorem pdfparser_init_eager_existence_check :
    PDFParser.init false = Except.error ParseError.inputNotFound ∧
      PDFParser.init true = Except.ok ⟨[], ⟨none, none⟩⟩ := by
  constructor <;> rfl

end DocToJson
